import Mathlib

/-!
Verification of the background resource cache of the fabric_mcp server.

The development shallow-embeds the relevant Python source files:
- src/server/resources_cache.py  (CacheSnapshot, ResourceCache)
- src/server/utils/data_helpers.py  (apply_sort, paginate)
- src/server/tools/topology.py  (query_sites and the live-fallback path)
- src/server/config.py  (the max_fetch_for_sort setting, as a parameter)

Stateful, concurrent code (the cache) is embedded as an explicit state type
plus a step function over atomic events: under the cooperative (asyncio)
scheduler every stretch of code between await points runs atomically, so the
events below are exactly the await-separated atomic sections of the source.
-/

namespace Fabric

/-- A resource record. Python has Dict[str, Any]; the cache treats records as
opaque, and the only operation any verified code performs on a record is
r.get(field), whose result is compared or tested for None. We therefore model
a record as an association list from string keys to optional integer values;
none models both a missing key and an explicit None value, exactly the two
cases Python r.get(field) conflates. -/
abbrev Rec := List (String × Option Int)

/-- Python r.get(f): the stored value when the key is present, None otherwise. -/
def rget (r : Rec) (f : String) : Option Int :=
  match r.lookup f with
  | some v => v
  | none => none

/-- The sort argument of the query tools and of apply_sort: Python
Optional[Dict] with recognized keys "field" and "direction". A present,
non-empty dict is some spec; None and the empty dict (both falsy, and the
source only ever tests truthiness) are none. -/
structure SortSpec where
  field : Option String := none
  direction : Option String := none
deriving DecidableEq, Repr

/-- The sort key computed by apply_sort in src/server/utils/data_helpers.py:
the Python tuple (r.get(field) is None, r.get(field)). -/
def sortKey (f : String) (r : Rec) : Bool × Option Int :=
  ((rget r f).isNone, rget r f)

/-- Comparison of two sort keys, as Python orders the tuples
(is-None, value): lexicographic, with False < True on the booleans and
integer order on the values. Keys built by sortKey always have first
component equal to isNone of the second, so when the booleans agree the two
options are either both none (equal) or both some; the remaining match arms
are unreachable for such keys and are set to true. -/
def keyLe : Bool × Option Int → Bool × Option Int → Bool
  | (a1, a2), (b1, b2) =>
    if a1 = b1 then
      match a2, b2 with
      | some x, some y => decide (x ≤ y)
      | _, _ => true
    else decide (a1 = false)

/-- Python str.lower(): lowercase the string character by character (the
library String.toLower is the same map, but its recursion does not reduce
inside proofs, so the map is taken over the character list directly). -/
def pyLower (s : String) : String := ⟨s.data.map Char.toLower⟩

/-- apply_sort from src/server/utils/data_helpers.py. Python sorted with a
key function is a stable sort; reverse=True is stable-descending, i.e. a
stable sort under the flipped comparison, which is what mergeSort with the
flipped Boolean relation computes. Falsy guards: a missing sort dict, a
missing or empty "field", are returned unchanged; a missing or empty
"direction" defaults to "asc" and is lowercased before the "desc" test. -/
def apply_sort (items : List Rec) (sort : Option SortSpec) : List Rec :=
  match sort with
  | none => items
  | some s =>
    match s.field with
    | none => items
    | some f =>
      if f = "" then items
      else
        let direction := pyLower
          (match s.direction with
           | none => "asc"
           | some d => if d = "" then "asc" else d)
        if direction = "desc" then
          items.mergeSort (fun a b => keyLe (sortKey f b) (sortKey f a))
        else
          items.mergeSort (fun a b => keyLe (sortKey f a) (sortKey f b))

/-- paginate from src/server/utils/data_helpers.py:
items[start:] when limit is None, else items[start : start + max(0, limit)],
with start = max(0, offset). -/
def paginate (items : List Rec) (limit : Option Int) (offset : Int) : List Rec :=
  match limit with
  | none => items.drop (max 0 offset).toNat
  | some l => ((items.drop (max 0 offset).toNat).take (max 0 l).toNat)

/-- CacheSnapshot from src/server/resources_cache.py: a capture timestamp
plus the four resource collections. The source stores a wall-clock float
(time.time(), with 0.0 the never-refreshed sentinel); only which refresh
cycle produced the snapshot matters to any claim, so ts is modelled as the
index of the capturing cycle, with ts = 0 the initial sentinel. -/
structure CacheSnapshot where
  ts : Nat
  sites : List Rec := []
  hosts : List Rec := []
  facility_ports : List Rec := []
  links : List Rec := []
deriving DecidableEq, Repr

/-- The four resource kinds the cache refreshes. -/
inductive Kind
  | sites
  | hosts
  | facility_ports
  | links
deriving DecidableEq, Repr

/-- The locals of one in-flight refresh_once call: the refresh cycle it
belongs to, a program counter (pc counts the paged fetches already
completed, so pc = 4 means ready to publish), and the four accumulated
collections, none while not yet fetched. -/
structure RefreshJob where
  cycle : Nat
  pc : Nat
  rsites : Option (List Rec) := none
  rhosts : Option (List Rec) := none
  rfacility_ports : Option (List Rec) := none
  rlinks : Option (List Rec) := none
deriving DecidableEq, Repr

/-- The shared state of a ResourceCache plus an allocation store for the
snapshots it has published.

store models the set of CacheSnapshot objects ever constructed and
published; mutating a published snapshot would change an existing entry,
while the source only ever builds new ones, so every transition below only
appends. cur models the _snap reference: an index into store. job is the at
most one in-flight refresh_once (per the claims, the single background loop
is the only writer). wired is whether wire_fm_factory has supplied a
factory; last_good_token is the credential recorded by note_token; calls
logs every paged upstream fetch as (cycle, kind). -/
structure Sys where
  store : List CacheSnapshot
  cur : Nat
  job : Option RefreshJob := none
  nextCycle : Nat := 1
  wired : Bool := false
  last_good_token : Option String := none
  calls : List (Nat × Kind) := []
deriving DecidableEq, Repr

/-- The snapshot held at construction: CacheSnapshot(ts=0.0), all four
collections empty. -/
def initSnap : CacheSnapshot := { ts := 0 }

/-- A freshly constructed cache: _snap = initSnap, no factory, no token. -/
def initSys : Sys := { store := [initSnap], cur := 0 }

/-- A freshly constructed cache right after wire_fm_factory was called. -/
def initSysWired : Sys := { initSys with wired := true }

/-- What snapshot() returns: the current _snap reference, read without any
lock. -/
def currentSnap (s : Sys) : CacheSnapshot := s.store.getD s.cur initSnap

/-- has_data from src/server/resources_cache.py:
bool(s.sites or s.hosts or s.facility_ports or s.links) on the current
snapshot; a Python list is truthy exactly when it is non-empty. -/
def has_data (s : Sys) : Bool :=
  !(currentSnap s).sites.isEmpty || !(currentSnap s).hosts.isEmpty ||
    !(currentSnap s).facility_ports.isEmpty || !(currentSnap s).links.isEmpty

/-- One paged fetch of an in-flight refresh (the await points inside
refresh_once). The fully drained result of the paging helper for the four
kinds during cycle n is abstracted as fetchRes n kind; the fetches happen in
source order sites, hosts, facility_ports, links. -/
def stepJob (fetchRes : Nat → Kind → List Rec) (j : RefreshJob) : RefreshJob :=
  if j.pc = 0 then { j with rsites := some (fetchRes j.cycle Kind.sites), pc := 1 }
  else if j.pc = 1 then { j with rhosts := some (fetchRes j.cycle Kind.hosts), pc := 2 }
  else if j.pc = 2 then
    { j with rfacility_ports := some (fetchRes j.cycle Kind.facility_ports), pc := 3 }
  else if j.pc = 3 then { j with rlinks := some (fetchRes j.cycle Kind.links), pc := 4 }
  else j

/-- The upstream call the next stepFetch of job j performs, for the call
log. -/
def callOf (j : RefreshJob) : List (Nat × Kind) :=
  if j.pc = 0 then [(j.cycle, Kind.sites)]
  else if j.pc = 1 then [(j.cycle, Kind.hosts)]
  else if j.pc = 2 then [(j.cycle, Kind.facility_ports)]
  else if j.pc = 3 then [(j.cycle, Kind.links)]
  else []

/-- The atomic events of the system, i.e. the await-separated atomic
sections of the source under the cooperative scheduler:
- wire: wire_fm_factory supplies the factory;
- noteToken: note_token records a credential (no-op on a falsy token);
- beginRefresh: refresh_once starts; its guard returns at once when no
  factory is wired, and at most one refresh is in flight;
- stepFetch: the in-flight refresh completes its next paged fetch;
- publish: the in-flight refresh builds the new CacheSnapshot and swaps the
  _snap reference, the single write under the lock;
- fail: the in-flight refresh raises; the loop catches the exception, so the
  refresh simply disappears without publishing;
- read: a concurrent snapshot() call, returning the current reference. -/
inductive Ev
  | wire
  | noteToken (tok : Option String)
  | beginRefresh
  | stepFetch
  | publish
  | fail
  | read
deriving DecidableEq, Repr

/-- One atomic transition. Events that do not apply in the current state
(publishing with no ready job, fetching with no job, starting a second
in-flight refresh) leave the state unchanged. Returns the new state and,
for read, the snapshot handed to the reader. -/
def step (fetchRes : Nat → Kind → List Rec) (e : Ev) (s : Sys) :
    Sys × Option CacheSnapshot :=
  match e with
  | Ev.wire => ({ s with wired := true }, none)
  | Ev.noteToken tok =>
    match tok with
    | none => (s, none)
    | some t =>
      if t = "" then (s, none) else ({ s with last_good_token := some t }, none)
  | Ev.beginRefresh =>
    if s.wired then
      match s.job with
      | none =>
        ({ s with job := some { cycle := s.nextCycle, pc := 0 },
                  nextCycle := s.nextCycle + 1 }, none)
      | some _ => (s, none)
    else (s, none)
  | Ev.stepFetch =>
    match s.job with
    | some j =>
      ({ s with job := some (stepJob fetchRes j), calls := s.calls ++ callOf j }, none)
    | none => (s, none)
  | Ev.publish =>
    match s.job with
    | some j =>
      if j.pc = 4 then
        ({ s with
            store := s.store ++
              [{ ts := j.cycle, sites := j.rsites.getD [], hosts := j.rhosts.getD [],
                 facility_ports := j.rfacility_ports.getD [],
                 links := j.rlinks.getD [] }],
            cur := s.store.length, job := none }, none)
      else (s, none)
    | none => (s, none)
  | Ev.fail => ({ s with job := none }, none)
  | Ev.read => (s, some (currentSnap s))

/-- Run a sequence of atomic events, collecting every snapshot handed to a
reader. -/
def runTrace (fetchRes : Nat → Kind → List Rec) :
    List Ev → Sys → Sys × List CacheSnapshot
  | [], s => (s, [])
  | e :: es, s =>
    let p := step fetchRes e s
    let q := runTrace fetchRes es p.1
    (q.1, p.2.toList ++ q.2)

/-- Run a sequence of atomic events, keeping only the final state. -/
def runEvs (fetchRes : Nat → Kind → List Rec) (evs : List Ev) (s : Sys) : Sys :=
  (runTrace fetchRes evs s).1

/-- The snapshot a completed refresh cycle n publishes. -/
def mkSnap (fetchRes : Nat → Kind → List Rec) (n : Nat) : CacheSnapshot :=
  { ts := n, sites := fetchRes n Kind.sites, hosts := fetchRes n Kind.hosts,
    facility_ports := fetchRes n Kind.facility_ports, links := fetchRes n Kind.links }

/-- The events of one refresh_once call that completes: the guard, the four
paged fetches in source order, the publish. -/
def successEvs : List Ev :=
  Ev.beginRefresh :: (List.replicate 4 Ev.stepFetch ++ [Ev.publish])

/-- The events of one refresh_once call that raises after k of its paged
fetches: the guard, k fetches, then the exception (caught by the loop). -/
def failEvs (k : Nat) : List Ev :=
  Ev.beginRefresh :: (List.replicate k Ev.stepFetch ++ [Ev.fail])

/-- The body of the paging helper _page inside refresh_once
(src/server/resources_cache.py): starting from the given offset and
accumulators, repeatedly fetch a page of the fixed limit, append it, and
stop on an empty page or on a page shorter than the limit, else advance the
offset by the limit. The source is an unbounded while-loop; fuel bounds the
embedding, and a run that stops before exhausting fuel is a faithful run of
the loop. fetch_fn limit offset abstracts one upstream page call (the token
and filter arguments the source passes through are opaque to the loop);
every issued call is logged as (limit, offset). -/
def pageGo (fetch_fn : Nat → Nat → List Rec) (limit : Nat) :
    Nat → Nat → List Rec → List (Nat × Nat) → List Rec × List (Nat × Nat)
  | 0, _, out, calls => (out, calls)
  | fuel + 1, offset, out, calls =>
    let pg := fetch_fn limit offset
    let calls2 := calls ++ [(limit, offset)]
    if pg = [] then (out, calls2)
    else if pg.length < limit then (out ++ pg, calls2)
    else pageGo fetch_fn limit fuel (offset + limit) (out ++ pg) calls2

/-- The paging helper _page: page size min(self._max_fetch, kwargs limit,
which defaults to 500 and is 500 at every call site in refresh_once),
starting at offset 0 with empty accumulators. -/
def page (fetch_fn : Nat → Nat → List Rec) (max_fetch : Nat) (kwlimit : Nat)
    (fuel : Nat) : List Rec × List (Nat × Nat) :=
  pageGo fetch_fn (min max_fetch kwlimit) fuel 0 [] []

/-- The two clamped configuration fields ResourceCache.__init__ stores:
self._interval = max(30, int(interval_seconds)) and
self._max_fetch = max(100, int(max_fetch)). -/
structure CacheConfig where
  interval : Int
  max_fetch : Int
deriving DecidableEq, Repr

/-- ResourceCache.__init__, restricted to the two clamped numeric fields
(the remaining fields are the initial runtime state initSys). -/
def cacheInit (interval_seconds : Int) (max_fetch : Int) : CacheConfig :=
  { interval := max 30 interval_seconds, max_fetch := max 100 max_fetch }

/-- The lifecycle state start and stop operate on: task is whether
self._refresh_task is set, stop_event the stop flag, and spawned counts how
many background loop tasks were ever created (a created task is what
asyncio.create_task spawns). -/
structure LoopState where
  task : Bool
  stop_event : Bool
  spawned : Nat
deriving DecidableEq, Repr

/-- ResourceCache.start: only when no task exists, clear the stop event and
spawn the loop. -/
def start (s : LoopState) : LoopState :=
  if s.task then s
  else { task := true, stop_event := false, spawned := s.spawned + 1 }

/-- ResourceCache.stop: only when a task exists, set the stop event, wait
out the grace period or cancel, and drop the task reference; the spawned
loop ends either way. -/
def stop (s : LoopState) : LoopState :=
  if s.task then { s with task := false, stop_event := true } else s

/-- The helper _apply_filters from src/server/tools/topology.py: apply the
filter callable when one is provided. -/
def applyFilters (items : List Rec) (filters : Option (Rec → Bool)) : List Rec :=
  match filters with
  | none => items
  | some f => items.filter f

/-- query_sites from src/server/tools/topology.py (query_hosts,
query_facility_ports and query_links are verbatim copies over the other
three collections). cache is the snapshot CACHE.snapshot() would return,
none when no cache is wired; the already-coerced filter callable is
filters. On a cache hit (a wired cache whose snapshot has a truthy, i.e.
non-empty, sites list) the tool filters the cached list; on a cache miss it
calls the upstream client once — abstracted as fm taking the requested
limit and offset, the token and filter arguments being opaque to it — with
limit = config.max_fetch_for_sort when a (truthy) sort is requested, else
the caller limit, always at offset 0. Both paths then sort and paginate
client-side. Returns the result together with the log of live upstream
calls as (limit, offset) pairs, empty on a cache hit. -/
def query_sites (cache : Option CacheSnapshot) (fm : Option Int → Int → List Rec)
    (max_fetch_for_sort : Int) (filters : Option (Rec → Bool))
    (sort : Option SortSpec) (limit : Option Int) (offset : Int) :
    List Rec × List (Option Int × Int) :=
  let items0 : Option (List Rec) :=
    match cache with
    | none => none
    | some snap => if snap.sites.isEmpty then none else some snap.sites
  match items0 with
  | none =>
    let fm_limit : Option Int := if sort.isSome then some max_fetch_for_sort else limit
    (paginate (apply_sort (fm fm_limit 0) sort) limit offset, [(fm_limit, 0)])
  | some items =>
    (paginate (apply_sort (applyFilters items filters) sort) limit offset, [])

/-- A snapshot is cycle-coherent for the upstream abstraction fetchRes when
it is either the initial sentinel or exactly the snapshot a single refresh
cycle n publishes: all four collections drained during that one cycle. -/
def SnapOK (fetchRes : Nat → Kind → List Rec) (c : CacheSnapshot) : Prop :=
  c = initSnap ∨ ∃ n, c = mkSnap fetchRes n

/-- The invariant of an in-flight refresh: every collection it has fetched
so far (per its pc) is the drain of its own cycle. -/
def JobOK (fetchRes : Nat → Kind → List Rec) (j : RefreshJob) : Prop :=
  (1 ≤ j.pc → j.rsites = some (fetchRes j.cycle Kind.sites)) ∧
  (2 ≤ j.pc → j.rhosts = some (fetchRes j.cycle Kind.hosts)) ∧
  (3 ≤ j.pc → j.rfacility_ports = some (fetchRes j.cycle Kind.facility_ports)) ∧
  (4 ≤ j.pc → j.rlinks = some (fetchRes j.cycle Kind.links))

/-- The system invariant: every snapshot ever published is cycle-coherent,
and the in-flight refresh, if any, satisfies its own invariant. -/
def SysOK (fetchRes : Nat → Kind → List Rec) (s : Sys) : Prop :=
  (∀ c ∈ s.store, SnapOK fetchRes c) ∧ ∀ j, s.job = some j → JobOK fetchRes j

/-! Concrete fixtures used by witnesses and concrete test theorems. -/

/-- An upstream whose every drain is empty. -/
def fetch0 : Nat → Kind → List Rec := fun _ _ => []

/-- An upstream whose drains tag every record with the cycle that fetched
it. -/
def fetch1 : Nat → Kind → List Rec := fun n _ => [[("cycle", some (n : Int))]]

/-- A fetch adapter whose first page is already empty. -/
def adapterEmpty : Nat → Nat → List Rec := fun _ _ => []

/-- The fetch adapter of the paging claim: pages of sizes 500, 500, 240 at
offsets 0, 500, 1000, nothing beyond. -/
def adapter3 : Nat → Nat → List Rec := fun _ offset =>
  if offset = 0 then List.replicate 500 []
  else if offset = 500 then List.replicate 500 []
  else if offset = 1000 then List.replicate 240 []
  else []

/-- A live upstream client for the query-tool witnesses: two site records
out of key order. -/
def fmW : Option Int → Int → List Rec := fun _ _ => [[("x", some 2)], [("x", some 1)]]

/-- Every call the paging loop issues carries the fixed page size. -/
theorem pageGo_calls_limit (fetch_fn : Nat → Nat → List Rec) (limit : Nat) :
    ∀ (fuel offset : Nat) (out : List Rec) (calls : List (Nat × Nat)),
      (∀ c ∈ calls, c.1 = limit) →
      ∀ c ∈ (pageGo fetch_fn limit fuel offset out calls).2, c.1 = limit := by
  intro fuel
  induction fuel with
  | zero => intro offset out calls h c hc; exact h c hc
  | succ n ih =>
    intro offset out calls h c hc
    simp only [pageGo] at hc
    split at hc
    · refine (?_ : ∀ x ∈ calls ++ [(limit, offset)], x.1 = limit) c hc
      intro x hx
      rcases List.mem_append.mp hx with hx | hx
      · exact h x hx
      · simp only [List.mem_singleton] at hx; subst hx; rfl
    · split at hc
      · refine (?_ : ∀ x ∈ calls ++ [(limit, offset)], x.1 = limit) c hc
        intro x hx
        rcases List.mem_append.mp hx with hx | hx
        · exact h x hx
        · simp only [List.mem_singleton] at hx; subst hx; rfl
      · refine ih _ _ _ ?_ c hc
        intro x hx
        rcases List.mem_append.mp hx with hx | hx
        · exact h x hx
        · simp only [List.mem_singleton] at hx; subst hx; rfl

set_option maxRecDepth 40000 in
/-- C3: the paging loop requests pages of size min(max_page_fetch,
requested_page_size) starting at offset 0, accumulates pages, and stops on
an empty or short page: every issued call carries that page size; the
[500, 500, 240] adapter yields exactly 1240 records in exactly 3 calls at
offsets 0, 500, 1000; and an adapter whose first page is empty yields an
empty collection after exactly 1 call. -/
theorem paging_loop_spec :
    (∀ (fetch_fn : Nat → Nat → List Rec) (max_fetch kwlimit fuel : Nat),
      ∀ c ∈ (page fetch_fn max_fetch kwlimit fuel).2, c.1 = min max_fetch kwlimit) ∧
    (page adapter3 5000 500 10).1.length = 1240 ∧
    (page adapter3 5000 500 10).2 = [(500, 0), (500, 500), (500, 1000)] ∧
    page adapterEmpty 5000 500 10 = ([], [(500, 0)]) := by
  refine ⟨?_, by decide, by decide, by decide⟩
  intro fetch_fn max_fetch kwlimit fuel c hc
  exact pageGo_calls_limit fetch_fn _ fuel 0 [] [] (by simp) c hc

set_option maxRecDepth 40000 in
/-- C3 witness: the general conjunct evaluated at the concrete adapter. -/
theorem paging_loop_spec_witness :
    (500, 0) ∈ (page adapter3 5000 500 10).2 ∧ (500, 0).1 = min 5000 500 :=
  ⟨by decide, paging_loop_spec.1 adapter3 5000 500 10 (500, 0) (by decide)⟩

/-- C4: the effective refresh interval is max(30, refresh_interval) — so at
least 30, and the given value once it reaches 30 — and the effective
per-page cap is max(100, max_page_fetch); refresh_interval=5 yields 30 and
max_page_fetch=10 yields 100. -/
theorem init_clamps_floors (i m : Int) :
    (cacheInit i m).interval = max 30 i ∧
    (cacheInit i m).max_fetch = max 100 m ∧
    30 ≤ (cacheInit i m).interval ∧
    100 ≤ (cacheInit i m).max_fetch ∧
    (30 ≤ i → (cacheInit i m).interval = i) ∧
    (100 ≤ m → (cacheInit i m).max_fetch = m) ∧
    (cacheInit 5 m).interval = 30 ∧
    (cacheInit i 10).max_fetch = 100 := by
  refine ⟨rfl, rfl, le_max_left 30 i, le_max_left 100 m, ?_, ?_,
    max_eq_left (by norm_num), max_eq_left (by norm_num)⟩
  · intro h; exact max_eq_right h
  · intro h; exact max_eq_right h

/-- C4 witness: the clamps evaluated above and below the floors. -/
theorem init_clamps_floors_witness :
    (cacheInit 35 120).interval = 35 ∧ (cacheInit 35 120).max_fetch = 120 ∧
    (cacheInit 5 120).interval = 30 ∧ (cacheInit 35 10).max_fetch = 100 :=
  ⟨(init_clamps_floors 35 120).2.2.2.2.1 (by decide),
   (init_clamps_floors 35 120).2.2.2.2.2.1 (by decide),
   (init_clamps_floors 5 120).2.2.2.2.2.2.1,
   (init_clamps_floors 35 10).2.2.2.2.2.2.2⟩

/-- C5: start and stop are idempotent: a second start changes nothing and
spawns no second loop, and a second stop changes nothing. -/
theorem start_stop_idempotent (s : LoopState) :
    start (start s) = start s ∧
    (start (start s)).spawned = (start s).spawned ∧
    stop (stop s) = stop s ∧
    (stop s).task = false := by
  by_cases h : s.task <;> simp [start, stop, h]

/-- C6: has_data is true exactly when one of the four collections of the
current snapshot is non-empty; hence it is false on a freshly constructed
cache and false again after a completed refresh whose four drains were all
empty. -/
theorem has_data_characterization :
    (∀ s : Sys, has_data s = true ↔
      ((currentSnap s).sites ≠ [] ∨ (currentSnap s).hosts ≠ [] ∨
       (currentSnap s).facility_ports ≠ [] ∨ (currentSnap s).links ≠ [])) ∧
    has_data initSys = false ∧
    has_data (runEvs fetch0 (Ev.wire :: successEvs) initSys) = false := by
  refine ⟨?_, by decide, by decide⟩
  intro s
  simp [has_data, or_assoc]

/-- C8: with no fetch factory wired, refresh_once is a no-op: its guard
returns at once without touching any state and without reading anything,
and a whole refresh_once invocation in that state changes nothing, performs
no upstream call and publishes nothing. -/
theorem refresh_once_unwired_noop (fetchRes : Nat → Kind → List Rec) (s : Sys)
    (hw : s.wired = false) (hjob : s.job = none) :
    step fetchRes Ev.beginRefresh s = (s, none) ∧
    runEvs fetchRes successEvs s = s := by
  constructor
  · simp [step, hw]
  · simp [runEvs, runTrace, successEvs, List.replicate, step, hw, hjob]

/-- C8 witness: a freshly constructed cache has no factory wired. -/
theorem refresh_once_unwired_noop_witness :
    step fetch1 Ev.beginRefresh initSys = (initSys, none) ∧
    runEvs fetch1 successEvs initSys = initSys :=
  refresh_once_unwired_noop fetch1 initSys rfl rfl

/-- Each atomic step of the system only ever appends to the snapshot store:
no transition rewrites an existing entry. -/
theorem step_store_extend (fetchRes : Nat → Kind → List Rec) (e : Ev) (s : Sys) :
    ∃ rest, (step fetchRes e s).1.store = s.store ++ rest := by
  cases e with
  | wire => exact ⟨[], by simp [step]⟩
  | noteToken tok =>
    rcases tok with _ | t
    · exact ⟨[], by simp [step]⟩
    · by_cases h : t = ""
      · exact ⟨[], by simp [step, h]⟩
      · exact ⟨[], by simp [step, h]⟩
  | beginRefresh =>
    by_cases hw : s.wired
    · rcases hj : s.job with _ | j
      · exact ⟨[], by simp [step, hw, hj]⟩
      · exact ⟨[], by simp [step, hw, hj]⟩
    · exact ⟨[], by simp [step, hw]⟩
  | stepFetch =>
    rcases hj : s.job with _ | j
    · exact ⟨[], by simp [step, hj]⟩
    · exact ⟨[], by simp [step, hj]⟩
  | publish =>
    rcases hj : s.job with _ | j
    · exact ⟨[], by simp [step, hj]⟩
    · by_cases hpc : j.pc = 4
      · refine ⟨(step fetchRes Ev.publish s).1.store.drop s.store.length, ?_⟩
        simp [step, hj, hpc]
      · exact ⟨[], by simp [step, hj, hpc]⟩
  | fail => exact ⟨[], by simp [step]⟩
  | read => exact ⟨[], by simp [step]⟩

/-- Running a trace from the head event equals running the tail from the
stepped state. -/
theorem runEvs_cons (fetchRes : Nat → Kind → List Rec) (e : Ev) (es : List Ev)
    (s : Sys) :
    runEvs fetchRes (e :: es) s = runEvs fetchRes es (step fetchRes e s).1 := by
  simp [runEvs, runTrace]

/-- Traces compose: running a concatenation runs the two halves in order. -/
theorem runEvs_append (fetchRes : Nat → Kind → List Rec) (xs ys : List Ev)
    (s : Sys) :
    runEvs fetchRes (xs ++ ys) s = runEvs fetchRes ys (runEvs fetchRes xs s) := by
  induction xs generalizing s with
  | nil => rfl
  | cons e es ih => rw [List.cons_append, runEvs_cons, runEvs_cons, ih]

/-- C7: a Snapshot, once constructed, is never mutated. Every interleaving
of cache operations only appends to the allocation store of published
snapshots, so any CacheSnapshot previously returned by snapshot() keeps its
timestamp and its four collections forever; the query tools of the
embedding (query_sites, apply_sort, paginate) are pure functions returning
new lists and cannot touch it either. -/
theorem snapshots_never_mutated (fetchRes : Nat → Kind → List Rec)
    (evs : List Ev) (s : Sys) :
    ∃ rest, (runEvs fetchRes evs s).store = s.store ++ rest := by
  induction evs generalizing s with
  | nil => exact ⟨[], by simp [runEvs, runTrace]⟩
  | cons e es ih =>
    obtain ⟨r1, h1⟩ := step_store_extend fetchRes e s
    obtain ⟨r2, h2⟩ := ih (step fetchRes e s).1
    exact ⟨r1 ++ r2, by rw [runEvs_cons, h2, h1, List.append_assoc]⟩

/-- The last element of a store extended by one published snapshot. -/
theorem getD_append_length (l : List CacheSnapshot) (x d : CacheSnapshot) :
    (l ++ [x]).getD l.length d = x := by
  induction l with
  | nil => rfl
  | cons a t ih => simp [ih]

/-- A paged fetch changes only the in-flight locals and the call log: the
published store, the current reference, the wiring and the cycle counter
are untouched. -/
theorem stepFetch_frame (fetchRes : Nat → Kind → List Rec) (s : Sys) :
    (step fetchRes Ev.stepFetch s).1.store = s.store ∧
    (step fetchRes Ev.stepFetch s).1.cur = s.cur ∧
    (step fetchRes Ev.stepFetch s).1.wired = s.wired ∧
    (step fetchRes Ev.stepFetch s).1.nextCycle = s.nextCycle := by
  rcases hj : s.job with _ | j <;> simp [step, hj]

/-- Any number of paged fetches leaves store, reference, wiring and cycle
counter untouched. -/
theorem runEvs_stepFetches_frame (fetchRes : Nat → Kind → List Rec) (k : Nat)
    (s : Sys) :
    (runEvs fetchRes (List.replicate k Ev.stepFetch) s).store = s.store ∧
    (runEvs fetchRes (List.replicate k Ev.stepFetch) s).cur = s.cur ∧
    (runEvs fetchRes (List.replicate k Ev.stepFetch) s).wired = s.wired ∧
    (runEvs fetchRes (List.replicate k Ev.stepFetch) s).nextCycle = s.nextCycle := by
  induction k generalizing s with
  | zero => exact ⟨rfl, rfl, rfl, rfl⟩
  | succ n ih =>
    rw [List.replicate_succ, runEvs_cons]
    obtain ⟨f1, f2, f3, f4⟩ := stepFetch_frame fetchRes s
    obtain ⟨g1, g2, g3, g4⟩ := ih (step fetchRes Ev.stepFetch s).1
    exact ⟨g1.trans f1, g2.trans f2, g3.trans f3, g4.trans f4⟩

/-- After a refresh_once that raises past k of its fetches: nothing was
published (store and reference untouched), the in-flight refresh is gone
(the loop caught the exception), the wiring is intact, and the cycle
counter advanced past the failed cycle. -/
theorem runEvs_failEvs (fetchRes : Nat → Kind → List Rec) (s : Sys) (k : Nat)
    (hjob : s.job = none) (hw : s.wired = true) :
    (runEvs fetchRes (failEvs k) s).store = s.store ∧
    (runEvs fetchRes (failEvs k) s).cur = s.cur ∧
    (runEvs fetchRes (failEvs k) s).job = none ∧
    (runEvs fetchRes (failEvs k) s).wired = true ∧
    (runEvs fetchRes (failEvs k) s).nextCycle = s.nextCycle + 1 := by
  unfold failEvs
  rw [runEvs_cons, runEvs_append]
  have hbegin : (step fetchRes Ev.beginRefresh s).1 =
      { s with job := some { cycle := s.nextCycle, pc := 0 },
               nextCycle := s.nextCycle + 1 } := by
    simp [step, hjob, hw]
  rw [hbegin]
  obtain ⟨g1, g2, g3, g4⟩ := runEvs_stepFetches_frame fetchRes k
    { s with job := some { cycle := s.nextCycle, pc := 0 },
             nextCycle := s.nextCycle + 1 }
  have hfail : ∀ t : Sys, runEvs fetchRes [Ev.fail] t = { t with job := none } := by
    intro t; simp [runEvs, runTrace, step]
  rw [hfail]
  exact ⟨g1, g2, rfl, by rw [g3, hw], by rw [g4]⟩

/-- A refresh_once that runs to completion publishes exactly the snapshot
of its cycle: it is appended to the store and becomes the current
reference. -/
theorem runEvs_successEvs (fetchRes : Nat → Kind → List Rec) (s : Sys)
    (hjob : s.job = none) (hw : s.wired = true) :
    (runEvs fetchRes successEvs s).store = s.store ++ [mkSnap fetchRes s.nextCycle] ∧
    (runEvs fetchRes successEvs s).cur = s.store.length := by
  have hrepl : successEvs = [Ev.beginRefresh, Ev.stepFetch, Ev.stepFetch,
      Ev.stepFetch, Ev.stepFetch, Ev.publish] := by
    simp [successEvs, List.replicate]
  rw [hrepl]
  simp only [runEvs_cons]
  simp [step, stepJob, callOf, hjob, hw, mkSnap, runEvs, runTrace]

/-- C2: if refresh_once raises at any point (after any number k of its
paged fetches), the current snapshot and the store of published snapshots
are exactly as before the call — no partial snapshot is ever published —
and the loop survives: the in-flight refresh is gone, and the next attempt,
here a completed refresh_once at the next tick, publishes its own snapshot
as usual. -/
theorem refresh_failure_isolated (fetchRes : Nat → Kind → List Rec) (s : Sys)
    (k : Nat) (hjob : s.job = none) (hw : s.wired = true) :
    currentSnap (runEvs fetchRes (failEvs k) s) = currentSnap s ∧
    (runEvs fetchRes (failEvs k) s).store = s.store ∧
    (runEvs fetchRes (failEvs k) s).job = none ∧
    currentSnap (runEvs fetchRes (failEvs k ++ successEvs) s) =
      mkSnap fetchRes (s.nextCycle + 1) := by
  obtain ⟨h1, h2, h3, h4, h5⟩ := runEvs_failEvs fetchRes s k hjob hw
  refine ⟨?_, h1, h3, ?_⟩
  · unfold currentSnap
    rw [h1, h2]
  · rw [runEvs_append]
    obtain ⟨g1, g2⟩ := runEvs_successEvs fetchRes _ h3 h4
    unfold currentSnap
    rw [g1, g2, h1, h5]
    exact getD_append_length s.store _ _

/-- C2 witness: from a wired, idle cache, a refresh failing after 2 fetches
changes nothing, and the following successful refresh publishes cycle 2. -/
theorem refresh_failure_isolated_witness :
    currentSnap (runEvs fetch1 (failEvs 2) initSysWired) = currentSnap initSysWired ∧
    (runEvs fetch1 (failEvs 2) initSysWired).store = initSysWired.store ∧
    (runEvs fetch1 (failEvs 2) initSysWired).job = none ∧
    currentSnap (runEvs fetch1 (failEvs 2 ++ successEvs) initSysWired) =
      mkSnap fetch1 (initSysWired.nextCycle + 1) :=
  refresh_failure_isolated fetch1 initSysWired 2 rfl rfl

/-- One paged fetch preserves the in-flight invariant. -/
theorem jobOK_stepJob (fetchRes : Nat → Kind → List Rec) (j : RefreshJob)
    (h : JobOK fetchRes j) : JobOK fetchRes (stepJob fetchRes j) := by
  obtain ⟨h1, h2, h3, h4⟩ := h
  rcases j with ⟨cyc, pc, rs, rh, rf, rl⟩
  rcases pc with _ | _ | _ | _ | pc
  · refine ⟨fun _ => rfl, ?_, ?_, ?_⟩ <;> intro hx <;> simp [stepJob] at hx
  · have a1 : (1 : Nat) ≤ 0 + 1 := by omega
    refine ⟨fun _ => h1 a1, fun _ => rfl, ?_, ?_⟩ <;>
      intro hx <;> simp [stepJob] at hx
  · have a1 : (1 : Nat) ≤ 0 + 1 + 1 := by omega
    have a2 : (2 : Nat) ≤ 0 + 1 + 1 := by omega
    refine ⟨fun _ => h1 a1, fun _ => h2 a2, fun _ => rfl, ?_⟩
    intro hx
    simp [stepJob] at hx
  · have a1 : (1 : Nat) ≤ 0 + 1 + 1 + 1 := by omega
    have a2 : (2 : Nat) ≤ 0 + 1 + 1 + 1 := by omega
    have a3 : (3 : Nat) ≤ 0 + 1 + 1 + 1 := by omega
    exact ⟨fun _ => h1 a1, fun _ => h2 a2, fun _ => h3 a3, fun _ => rfl⟩
  · exact ⟨h1, h2, h3, h4⟩

/-- Every atomic step preserves the system invariant. -/
theorem sysOK_step (fetchRes : Nat → Kind → List Rec) (e : Ev) (s : Sys)
    (h : SysOK fetchRes s) : SysOK fetchRes (step fetchRes e s).1 := by
  obtain ⟨hstore, hjob⟩ := h
  cases e with
  | wire => exact ⟨hstore, hjob⟩
  | noteToken tok =>
    rcases tok with _ | t
    · exact ⟨hstore, hjob⟩
    · by_cases ht : t = ""
      · simp only [step, ht, reduceIte]
        exact ⟨hstore, hjob⟩
      · simp only [step, ht, reduceIte]
        exact ⟨hstore, hjob⟩
  | beginRefresh =>
    by_cases hw : s.wired
    · rcases hj : s.job with _ | j
      · simp only [step, hw, hj, if_pos]
        refine ⟨hstore, ?_⟩
        intro j2 hj2
        simp only [Option.some.injEq] at hj2
        subst hj2
        refine ⟨?_, ?_, ?_, ?_⟩ <;> intro hx <;> simp at hx
      · simp only [step, hw, hj, if_pos]
        exact ⟨hstore, hjob⟩
    · simp only [step, hw]
      simp only [Bool.false_eq_true, reduceIte]
      exact ⟨hstore, hjob⟩
  | stepFetch =>
    rcases hj : s.job with _ | j
    · simp only [step, hj]
      exact ⟨hstore, hjob⟩
    · simp only [step, hj]
      refine ⟨hstore, ?_⟩
      intro j2 hj2
      simp only [Option.some.injEq] at hj2
      subst hj2
      exact jobOK_stepJob fetchRes j (hjob j hj)
  | publish =>
    rcases hj : s.job with _ | j
    · simp only [step, hj]
      exact ⟨hstore, hjob⟩
    · by_cases hpc : j.pc = 4
      · simp only [step, hj, hpc, reduceIte]
        obtain ⟨h1, h2, h3, h4⟩ := hjob j hj
        refine ⟨?_, fun j2 hj2 => Option.noConfusion hj2⟩
        intro c hc
        rcases List.mem_append.mp hc with hc | hc
        · exact hstore c hc
        · simp only [List.mem_singleton] at hc
          subst hc
          refine Or.inr ⟨j.cycle, ?_⟩
          rw [h1 (by omega), h2 (by omega), h3 (by omega), h4 (by omega)]
          rfl
      · simp only [step, hj, hpc, reduceIte]
        exact ⟨hstore, hjob⟩
  | fail =>
    exact ⟨hstore, fun j2 hj2 => Option.noConfusion hj2⟩
  | read => exact ⟨hstore, hjob⟩

/-- Under the invariant, the current reference is cycle-coherent. -/
theorem currentSnap_ok (fetchRes : Nat → Kind → List Rec) (s : Sys)
    (h : SysOK fetchRes s) : SnapOK fetchRes (currentSnap s) := by
  unfold currentSnap List.getD
  rcases hx : s.store.get? s.cur with _ | c
  · exact Or.inl rfl
  · exact h.1 c (List.get?_mem hx)

/-- A step hands a reader nothing, or the current reference. -/
theorem step_output_cases (fetchRes : Nat → Kind → List Rec) (e : Ev) (s : Sys) :
    (step fetchRes e s).2 = none ∨ (step fetchRes e s).2 = some (currentSnap s) := by
  cases e with
  | wire => exact Or.inl rfl
  | noteToken tok =>
    rcases tok with _ | t
    · exact Or.inl rfl
    · by_cases ht : t = "" <;> simp [step, ht]
  | beginRefresh =>
    by_cases hw : s.wired
    · rcases hj : s.job with _ | j <;> simp [step, hw, hj]
    · simp [step, hw]
  | stepFetch => rcases hj : s.job with _ | j <;> simp [step, hj]
  | publish =>
    rcases hj : s.job with _ | j
    · simp [step, hj]
    · by_cases hpc : j.pc = 4 <;> simp [step, hj, hpc]
  | fail => exact Or.inl rfl
  | read => exact Or.inr rfl

/-- From any state satisfying the invariant, every snapshot a reader is
handed along any interleaving is cycle-coherent. -/
theorem runTrace_reads_ok (fetchRes : Nat → Kind → List Rec) (evs : List Ev)
    (s : Sys) (h : SysOK fetchRes s) :
    ∀ c ∈ (runTrace fetchRes evs s).2, SnapOK fetchRes c := by
  induction evs generalizing s with
  | nil => intro c hc; simp [runTrace] at hc
  | cons e es ih =>
    intro c hc
    have hc2 : c ∈ (step fetchRes e s).2.toList ++
        (runTrace fetchRes es (step fetchRes e s).1).2 := hc
    rcases List.mem_append.mp hc2 with hc3 | hc3
    · rcases step_output_cases fetchRes e s with ho | ho
      · rw [ho] at hc3; simp at hc3
      · rw [ho] at hc3
        simp only [Option.toList_some, List.mem_singleton] at hc3
        subst hc3
        exact currentSnap_ok fetchRes s h
    · exact ih (step fetchRes e s).1 (sysOK_step fetchRes e s h) c hc3

/-- C1: for every interleaving of concurrent snapshot() readers with
refresh activity, each reader receives a snapshot whose four collections
all originate from one refresh cycle (or the untouched initial snapshot) —
never a mix of collections from two different cycles. -/
theorem snapshot_reads_single_cycle (fetchRes : Nat → Kind → List Rec)
    (evs : List Ev) (c : CacheSnapshot)
    (hc : c ∈ (runTrace fetchRes evs initSys).2) :
    (c.ts = 0 ∧ c.sites = [] ∧ c.hosts = [] ∧ c.facility_ports = [] ∧
      c.links = []) ∨
    (∃ n, c.ts = n ∧ c.sites = fetchRes n Kind.sites ∧
      c.hosts = fetchRes n Kind.hosts ∧
      c.facility_ports = fetchRes n Kind.facility_ports ∧
      c.links = fetchRes n Kind.links) := by
  have h0 : SysOK fetchRes initSys := by
    constructor
    · intro x hx
      simp only [initSys, List.mem_singleton] at hx
      subst hx
      exact Or.inl rfl
    · intro j hj
      exact Option.noConfusion hj
  rcases runTrace_reads_ok fetchRes evs initSys h0 c hc with hcase | ⟨n, hcase⟩
  · subst hcase
    exact Or.inl ⟨rfl, rfl, rfl, rfl, rfl⟩
  · subst hcase
    exact Or.inr ⟨n, rfl, rfl, rfl, rfl, rfl⟩

/-- C1 witness: a reader interleaved right after a completed refresh is
handed the cycle-1 snapshot, coherent by the theorem. -/
theorem snapshot_reads_single_cycle_witness :
    mkSnap fetch1 1 ∈
      (runTrace fetch1 (Ev.wire :: (successEvs ++ [Ev.read])) initSys).2 ∧
    (((mkSnap fetch1 1).ts = 0 ∧ (mkSnap fetch1 1).sites = [] ∧
      (mkSnap fetch1 1).hosts = [] ∧ (mkSnap fetch1 1).facility_ports = [] ∧
      (mkSnap fetch1 1).links = []) ∨
    (∃ n, (mkSnap fetch1 1).ts = n ∧
      (mkSnap fetch1 1).sites = fetch1 n Kind.sites ∧
      (mkSnap fetch1 1).hosts = fetch1 n Kind.hosts ∧
      (mkSnap fetch1 1).facility_ports = fetch1 n Kind.facility_ports ∧
      (mkSnap fetch1 1).links = fetch1 n Kind.links)) :=
  ⟨by decide, snapshot_reads_single_cycle fetch1
    (Ev.wire :: (successEvs ++ [Ev.read])) (mkSnap fetch1 1) (by decide)⟩

/-- C9: on a cache miss (no cache wired, or the cached sites collection
empty) with an explicit sort requested, the query tool issues exactly one
live fetch with the configured max-fetch-for-sort ceiling at offset 0 —
not the caller limit — and then applies sorting and pagination (the caller
limit and offset) client-side to the fetched result. -/
theorem live_sort_fetch_ceiling (cache : Option CacheSnapshot)
    (fm : Option Int → Int → List Rec) (mffs : Int)
    (filters : Option (Rec → Bool)) (sp : SortSpec) (limit : Option Int)
    (offset : Int)
    (hmiss : cache = none ∨ ∃ snap, cache = some snap ∧ snap.sites = []) :
    query_sites cache fm mffs filters (some sp) limit offset =
      (paginate (apply_sort (fm (some mffs) 0) (some sp)) limit offset,
        [(some mffs, 0)]) := by
  rcases hmiss with h | ⟨snap, hc, hs⟩
  · subst h
    rfl
  · subst hc
    simp [query_sites, hs]

/-- C9 witness: no cache wired, an ascending sort on "x", caller limit 200
at offset 0. -/
theorem live_sort_fetch_ceiling_witness :
    query_sites none fmW 5000 none
        (some { field := some "x", direction := some "asc" }) (some 200) 0 =
      (paginate (apply_sort (fmW (some 5000) 0)
          (some { field := some "x", direction := some "asc" })) (some 200) 0,
        [(some 5000, 0)]) :=
  live_sort_fetch_ceiling none fmW 5000 none
    { field := some "x", direction := some "asc" } (some 200) 0 (Or.inl rfl)

/-- Transitivity of the key comparison on keys of the shape sortKey
produces, i.e. whose Boolean component is the is-None flag of the value. -/
theorem keyLe_trans_wf (v1 v2 v3 : Option Int)
    (h12 : keyLe (v1.isNone, v1) (v2.isNone, v2) = true)
    (h23 : keyLe (v2.isNone, v2) (v3.isNone, v3) = true) :
    keyLe (v1.isNone, v1) (v3.isNone, v3) = true := by
  rcases v1 with _ | x <;> rcases v2 with _ | y <;> rcases v3 with _ | z <;>
    (simp_all [keyLe]; try omega)

/-- The key comparison is total. -/
theorem keyLe_total (k1 k2 : Bool × Option Int) :
    (keyLe k1 k2 || keyLe k2 k1) = true := by
  rcases k1 with ⟨a1, a2⟩
  rcases k2 with ⟨b1, b2⟩
  rcases a1 <;> rcases b1 <;>
    rcases a2 with _ | x <;> rcases b2 with _ | y <;>
      simp [keyLe] <;> omega

/-- Nothing with a present value compares below a missing one: a key that
sits at or above the None key is itself the None key. -/
theorem keyLe_none_forces (va : Option Int)
    (h : keyLe (true, none) (va.isNone, va) = true) : va = none := by
  rcases va with _ | x
  · rfl
  · simp [keyLe] at h

/-- The sortedness of mergeSort, specialized to records under a transitive
and total Boolean comparison. -/
theorem pairwise_mergeSort_of (le : Rec → Rec → Bool)
    (trans : ∀ a b c : Rec, le a b → le b c → le a c)
    (total : ∀ a b : Rec, le a b || le b a) (l : List Rec) :
    (l.mergeSort le).Pairwise (fun a b => le a b = true) :=
  List.sorted_mergeSort trans total l

/-- C10: with direction "desc", apply_sort places records whose sort-field
value is None (or missing) before every record with a present value — at
the front, not the end — because reverse=True inverts the is-None key
component along with the field comparison; the "None values last"
placement holds for ascending sorts. -/
theorem apply_sort_desc_none_first (items : List Rec) (f : String)
    (hf : f ≠ "") :
    ((apply_sort items (some { field := some f, direction := some "desc" })).Pairwise
      (fun a b => rget b f = none → rget a f = none)) ∧
    ((apply_sort items (some { field := some f, direction := some "asc" })).Pairwise
      (fun a b => rget a f = none → rget b f = none)) := by
  have hlowd : pyLower "desc" = "desc" := by decide
  have hlowa : pyLower "asc" = "asc" := by decide
  have hna : ("asc" : String) ≠ "desc" := by decide
  constructor
  · have htrans : ∀ a b c : Rec, keyLe (sortKey f b) (sortKey f a) →
        keyLe (sortKey f c) (sortKey f b) → keyLe (sortKey f c) (sortKey f a) := by
      intro a b c hab hbc
      exact keyLe_trans_wf (rget c f) (rget b f) (rget a f) hbc hab
    have htot : ∀ a b : Rec,
        (keyLe (sortKey f b) (sortKey f a) || keyLe (sortKey f a) (sortKey f b)) = true := by
      intro a b
      exact keyLe_total (sortKey f b) (sortKey f a)
    have hs := pairwise_mergeSort_of
      (fun a b : Rec => keyLe (sortKey f b) (sortKey f a)) htrans htot items
    have heq : apply_sort items (some { field := some f, direction := some "desc" }) =
        items.mergeSort (fun a b => keyLe (sortKey f b) (sortKey f a)) := by
      simp [apply_sort, hf, hlowd]
    rw [heq]
    refine List.Pairwise.imp ?_ hs
    intro a b hab hbn
    simp only [sortKey, hbn, Option.isNone_none] at hab
    exact keyLe_none_forces (rget a f) hab
  · have htrans : ∀ a b c : Rec, keyLe (sortKey f a) (sortKey f b) →
        keyLe (sortKey f b) (sortKey f c) → keyLe (sortKey f a) (sortKey f c) := by
      intro a b c hab hbc
      exact keyLe_trans_wf (rget a f) (rget b f) (rget c f) hab hbc
    have htot : ∀ a b : Rec,
        (keyLe (sortKey f a) (sortKey f b) || keyLe (sortKey f b) (sortKey f a)) = true := by
      intro a b
      exact keyLe_total (sortKey f a) (sortKey f b)
    have hs := pairwise_mergeSort_of
      (fun a b : Rec => keyLe (sortKey f a) (sortKey f b)) htrans htot items
    have heq : apply_sort items (some { field := some f, direction := some "asc" }) =
        items.mergeSort (fun a b => keyLe (sortKey f a) (sortKey f b)) := by
      simp [apply_sort, hf, hlowa, hna]
    rw [heq]
    refine List.Pairwise.imp ?_ hs
    intro a b hab han
    simp only [sortKey, han, Option.isNone_none] at hab
    exact keyLe_none_forces (rget b f) hab

/-- C10 witness: sorting on "x" over a list with a value-bearing record and
a record missing the field. -/
theorem apply_sort_desc_none_first_witness :
    ((apply_sort [[("x", some 1)], []]
        (some { field := some "x", direction := some "desc" })).Pairwise
      (fun a b => rget b "x" = none → rget a "x" = none)) ∧
    ((apply_sort [[("x", some 1)], []]
        (some { field := some "x", direction := some "asc" })).Pairwise
      (fun a b => rget a "x" = none → rget b "x" = none)) :=
  apply_sort_desc_none_first [[("x", some 1)], []] "x" (by decide)

end Fabric
